import Mathlib

/-!
Verification of the process scheduler in `src/scheduler.cpp`.

The scheduler owns four collections of process identifiers: an unordered
set `parallelProcesses`, two FIFO queues `runnableQueue` and `blockedQueue`
(modelled as lists with the front at the head and pushes appending at the
back), and an unordered set `finishedProcesses`.  Process identifiers
(`pid_t`) are modelled as `Int`.

The C++ methods that read `queue::front()` without checking emptiness have
undefined behaviour on an empty queue; the embedding makes every such
access total by returning an explicit `SchedErr.emptyQueueUB` error, while
an explicit `throw runtime_error` in the source becomes
`SchedErr.invariantViolation`.  An error result leaves the caller's state
untouched: in the source every `throw` happens before any mutation.
-/

namespace Dettrace

/-- The error outcomes of a transition: `invariantViolation` corresponds to
an explicit `throw runtime_error` in the source; `emptyQueueUB` marks an
unguarded `front()`/`pop()` on an empty `std::queue`, which is undefined
behaviour in C++ and is made total here. -/
inductive SchedErr where
  | invariantViolation
  | emptyQueueUB
deriving DecidableEq, Repr

instance {ε α : Type} [DecidableEq ε] [DecidableEq α] :
    DecidableEq (Except ε α) := fun x y =>
  match x, y with
  | .error a, .error b =>
    if h : a = b then .isTrue (by rw [h])
    else .isFalse (by intro hc; cases hc; exact h rfl)
  | .ok a, .ok b =>
    if h : a = b then .isTrue (by rw [h])
    else .isFalse (by intro hc; cases hc; exact h rfl)
  | .error _, .ok _ => .isFalse (by intro hc; cases hc)
  | .ok _, .error _ => .isFalse (by intro hc; cases hc)

/-- Scheduler state: the four collections plus the recorded root pid.
Queues are lists with the front at the head; `push` appends at the back. -/
structure Sched where
  startingPid : Int
  parallelProcesses : Finset Int
  runnableQueue : List Int
  blockedQueue : List Int
  finishedProcesses : Finset Int
deriving DecidableEq

/-- `scheduler::scheduler(pid_t startingPid, logger&)`: seeds the root
process into `parallelProcesses`; both queues and `finishedProcesses`
start empty. -/
def mkScheduler (startingPid : Int) : Sched :=
  { startingPid := startingPid
    parallelProcesses := {startingPid}
    runnableQueue := []
    blockedQueue := []
    finishedProcesses := ∅ }

/-- `scheduler::getStartingPid`. -/
def getStartingPid (s : Sched) : Int :=
  s.startingPid

/-- `scheduler::isInParallel`: membership test on `parallelProcesses`. -/
def isInParallel (s : Sched) (process : Int) : Bool :=
  decide (process ∈ s.parallelProcesses)

/-- `scheduler::isFinished`: membership test on `finishedProcesses`. -/
def isFinished (s : Sched) (process : Int) : Bool :=
  decide (process ∈ s.finishedProcesses)

/-- `scheduler::emptyScheduler`: true when the runnable queue, the blocked
queue and the parallel set are all empty (`finishedProcesses` ignored). -/
def emptyScheduler (s : Sched) : Bool :=
  s.runnableQueue.isEmpty && s.blockedQueue.isEmpty &&
    decide (s.parallelProcesses = ∅)

/-- `scheduler::numberBlocked`: size of the blocked queue. -/
def numberBlocked (s : Sched) : Nat :=
  s.blockedQueue.length

/-- `scheduler::numberRunnable`: size of the runnable queue. -/
def numberRunnable (s : Sched) : Nat :=
  s.runnableQueue.length

/-- `scheduler::getNextRunnable`: front of the runnable queue, or the
sentinel `-1` when it is empty. -/
def getNextRunnable (s : Sched) : Int :=
  match s.runnableQueue with
  | [] => -1
  | frontPid :: _ => frontPid

/-- `scheduler::getNextBlocked`: front of the blocked queue, or the
sentinel `-1` when it is empty. -/
def getNextBlocked (s : Sched) : Int :=
  match s.blockedQueue with
  | [] => -1
  | frontPid :: _ => frontPid

/-- `scheduler::resumeRetry`: reads `blockedQueue.front()` unguarded
(undefined behaviour on an empty queue), throws if it differs from `pid`,
otherwise pops the front and pushes `pid` at the back. -/
def resumeRetry (s : Sched) (pid : Int) : Except SchedErr Sched :=
  match s.blockedQueue with
  | [] => .error .emptyQueueUB
  | frontPid :: rest =>
    if frontPid ≠ pid then .error .invariantViolation
    else .ok { s with blockedQueue := rest ++ [pid] }

/-- `scheduler::preemptSyscall`: reads `runnableQueue.front()` unguarded
(undefined behaviour on an empty queue), throws if it differs from `pid`,
otherwise pops the runnable front and pushes `pid` at the back of the
blocked queue. -/
def preemptSyscall (s : Sched) (pid : Int) : Except SchedErr Sched :=
  match s.runnableQueue with
  | [] => .error .emptyQueueUB
  | frontPid :: rest =>
    if frontPid ≠ pid then .error .invariantViolation
    else .ok { s with runnableQueue := rest
                      blockedQueue := s.blockedQueue ++ [pid] }

/-- `scheduler::resumeParallel`: reads the fronts of BOTH queues
unguarded before branching (undefined behaviour as soon as either queue is
empty), pops from the blocked queue if its front is `pid`, else from the
runnable queue if its front is `pid`, else throws; on success inserts
`pid` into `parallelProcesses`. -/
def resumeParallel (s : Sched) (pid : Int) : Except SchedErr Sched :=
  match s.blockedQueue, s.runnableQueue with
  | frontBlocked :: bs, frontRunnable :: rs =>
    if frontBlocked = pid then
      .ok { s with blockedQueue := bs
                   parallelProcesses := insert pid s.parallelProcesses }
    else if frontRunnable = pid then
      .ok { s with runnableQueue := rs
                   parallelProcesses := insert pid s.parallelProcesses }
    else .error .invariantViolation
  | _, _ => .error .emptyQueueUB

/-- `scheduler::addToParallelSet`: unconditional set insert. -/
def addToParallelSet (s : Sched) (newProcess : Int) : Sched :=
  { s with parallelProcesses := insert newProcess s.parallelProcesses }

/-- `scheduler::addToRunnableQueue`: erase from `parallelProcesses`
(no-op when absent) and push at the back of the runnable queue. -/
def addToRunnableQueue (s : Sched) (pid : Int) : Sched :=
  { s with parallelProcesses := s.parallelProcesses.erase pid
           runnableQueue := s.runnableQueue ++ [pid] }

/-- The drain-and-rebuild loops of `scheduler::removeFromScheduler`: pop
fronts into a temporary until `pid` is found (the match itself is popped
and dropped), then drain the remainder behind the temporary.  Net effect:
remove the first occurrence of `pid`, keeping the rest in order. -/
def removeFirst (pid : Int) : List Int → List Int
  | [] => []
  | frontPid :: rest =>
    if frontPid = pid then rest else frontPid :: removeFirst pid rest

/-- `scheduler::removeFromScheduler`: erases `pid` from
`parallelProcesses` when present, removes the first occurrence of `pid`
from the blocked queue and from the runnable queue via drain-and-rebuild
(both loops guard emptiness, so no undefined behaviour), and
unconditionally inserts `pid` into `finishedProcesses`. -/
def removeFromScheduler (s : Sched) (pid : Int) : Sched :=
  { s with parallelProcesses := s.parallelProcesses.erase pid
           blockedQueue := removeFirst pid s.blockedQueue
           runnableQueue := removeFirst pid s.runnableQueue
           finishedProcesses := insert pid s.finishedProcesses }

/-- The blocked-queue loop of `scheduler::isAlive` (lines 79-99): each
iteration pops the front; on a match it sets `found` and breaks (the match
stays popped), otherwise it pops AGAIN — dropping the next element without
pushing it to the temporary — and pushes the non-matching front onto the
temporary.  The second pop is unguarded: on a queue that just became empty
it is undefined behaviour.  Returns `found` and the rebuilt queue (the
trailing drain loop appends whatever remained after a break). -/
def isAliveBlockedScan (pid : Int) : List Int → List Int →
    Except SchedErr (Bool × List Int)
  | [], temp => .ok (false, temp)
  | frontPid :: rest, temp =>
    if frontPid = pid then .ok (true, temp ++ rest)
    else
      match rest with
      | [] => .error .emptyQueueUB
      | _ :: rest2 => isAliveBlockedScan pid rest2 (temp ++ [frontPid])

/-- The runnable-queue loop of `scheduler::isAlive` (lines 101-120): on a
match it breaks WITHOUT popping, so the trailing drain loop restores the
queue exactly; otherwise it pushes the front onto the temporary and pops
once.  This loop is well-guarded and restores the queue in every case. -/
def isAliveRunnableScan (pid : Int) : List Int → List Int → Bool × List Int
  | [], temp => (false, temp)
  | frontPid :: rest, temp =>
    if frontPid = pid then (true, temp ++ frontPid :: rest)
    else isAliveRunnableScan pid rest (temp ++ [frontPid])

/-- `scheduler::isAlive`: true immediately when `pid` is in
`parallelProcesses` (state untouched); otherwise runs the blocked-queue
scan and then the runnable-queue scan, writing the rebuilt queues back,
and returns whether either scan found `pid`. -/
def isAlive (s : Sched) (pid : Int) : Except SchedErr (Bool × Sched) :=
  if pid ∈ s.parallelProcesses then .ok (true, s)
  else
    match isAliveBlockedScan pid s.blockedQueue [] with
    | .error e => .error e
    | .ok (foundBlocked, blocked') =>
      match isAliveRunnableScan pid s.runnableQueue [] with
      | (foundRunnable, runnable') =>
        .ok (foundBlocked || foundRunnable,
             { s with blockedQueue := blocked', runnableQueue := runnable' })

/-- `scheduler::printProcesses`: logs the parallel set (iterated in
`std::set` order), then the runnable queue, then the blocked queue, by
draining COPIES of the queues; returns the log lines and the (unchanged)
scheduler state. -/
def printProcesses (s : Sched) : List Int × Sched :=
  (s.parallelProcesses.sort (· ≤ ·) ++ s.runnableQueue ++ s.blockedQueue, s)

/-- `n` successive `resumeRetry` calls, each targeting the then-current
front of the blocked queue (as the control loop does after consulting
`getNextBlocked`). -/
def iterRetry (s : Sched) : Nat → Except SchedErr Sched
  | 0 => .ok s
  | n + 1 =>
    match s.blockedQueue with
    | [] => .error .emptyQueueUB
    | frontPid :: _ =>
      match resumeRetry s frontPid with
      | .error e => .error e
      | .ok s' => iterRetry s' n

/-- One transition of section 4.1, exactly as the code implements it: the
unconditional operations always step, and an operation that can fail steps
exactly when it returns `.ok` (its stated precondition holds and no
unguarded empty-queue access occurs). -/
inductive Step : Sched → Sched → Prop where
  | addParallel (s : Sched) (p : Int) : Step s (addToParallelSet s p)
  | addRunnable (s : Sched) (p : Int) : Step s (addToRunnableQueue s p)
  | preempt (s : Sched) (p : Int) (s' : Sched)
      (h : preemptSyscall s p = .ok s') : Step s s'
  | retry (s : Sched) (p : Int) (s' : Sched)
      (h : resumeRetry s p = .ok s') : Step s s'
  | resumePar (s : Sched) (p : Int) (s' : Sched)
      (h : resumeParallel s p = .ok s') : Step s s'
  | remove (s : Sched) (p : Int) : Step s (removeFromScheduler s p)

/-- States reachable from the freshly constructed scheduler by transitions
whose stated preconditions hold. -/
def Reachable (startPid : Int) (s : Sched) : Prop :=
  Relation.ReflTransGen Step (mkScheduler startPid) s

/-- No pid is simultaneously present in more than one of the parallel set,
the runnable queue and the blocked queue. -/
def DisjointState (s : Sched) : Prop :=
  (∀ p : Int, p ∈ s.parallelProcesses → p ∉ s.runnableQueue) ∧
  (∀ p : Int, p ∈ s.parallelProcesses → p ∉ s.blockedQueue) ∧
  (∀ p : Int, p ∈ s.runnableQueue → p ∉ s.blockedQueue)

/-- The inductive invariant: each queue is duplicate-free and the three
live collections are pairwise disjoint. -/
def SchedInv (s : Sched) : Prop :=
  s.runnableQueue.Nodup ∧ s.blockedQueue.Nodup ∧ DisjointState s

/-- `Step` with the two unconditional insertions guarded: `addToParallelSet`
and `addToRunnableQueue` are only taken for a pid not already waiting in
the runnable or blocked queue (the discipline the control loop follows
when it creates a process or returns one from a deterministic turn). -/
inductive GStep : Sched → Sched → Prop where
  | addParallel (s : Sched) (p : Int)
      (h1 : p ∉ s.runnableQueue) (h2 : p ∉ s.blockedQueue) :
      GStep s (addToParallelSet s p)
  | addRunnable (s : Sched) (p : Int)
      (h1 : p ∉ s.runnableQueue) (h2 : p ∉ s.blockedQueue) :
      GStep s (addToRunnableQueue s p)
  | preempt (s : Sched) (p : Int) (s' : Sched)
      (h : preemptSyscall s p = .ok s') : GStep s s'
  | retry (s : Sched) (p : Int) (s' : Sched)
      (h : resumeRetry s p = .ok s') : GStep s s'
  | resumePar (s : Sched) (p : Int) (s' : Sched)
      (h : resumeParallel s p = .ok s') : GStep s s'
  | remove (s : Sched) (p : Int) : GStep s (removeFromScheduler s p)

/-- States reachable from the freshly constructed scheduler by guarded
transitions. -/
def GReachable (startPid : Int) (s : Sched) : Prop :=
  Relation.ReflTransGen GStep (mkScheduler startPid) s

/-- `Step` restricted to transitions that never name `bad` in the two
unconditional insertion operations (the only operations able to introduce
a pid from outside the live collections). -/
inductive StepAvoiding (bad : Int) : Sched → Sched → Prop where
  | addParallel (s : Sched) (p : Int) (h : p ≠ bad) :
      StepAvoiding bad s (addToParallelSet s p)
  | addRunnable (s : Sched) (p : Int) (h : p ≠ bad) :
      StepAvoiding bad s (addToRunnableQueue s p)
  | preempt (s : Sched) (p : Int) (s' : Sched)
      (h : preemptSyscall s p = .ok s') : StepAvoiding bad s s'
  | retry (s : Sched) (p : Int) (s' : Sched)
      (h : resumeRetry s p = .ok s') : StepAvoiding bad s s'
  | resumePar (s : Sched) (p : Int) (s' : Sched)
      (h : resumeParallel s p = .ok s') : StepAvoiding bad s s'
  | remove (s : Sched) (p : Int) : StepAvoiding bad s (removeFromScheduler s p)

/-- `pid` is recorded as finished and absent from all live collections. -/
def Retired (s : Sched) (pid : Int) : Prop :=
  pid ∈ s.finishedProcesses ∧ pid ∉ s.parallelProcesses ∧
    pid ∉ s.runnableQueue ∧ pid ∉ s.blockedQueue

/-! ## Helper lemmas -/

theorem removeFirst_of_not_mem {pid : Int} {l : List Int} (h : pid ∉ l) :
    removeFirst pid l = l := by
  induction l with
  | nil => rfl
  | cons f rest ih =>
    simp only [List.mem_cons, not_or] at h
    unfold removeFirst
    rw [if_neg (Ne.symm h.1)]
    rw [ih h.2]

theorem removeFirst_append_not_mem {pid : Int} {l1 l2 : List Int}
    (h : pid ∉ l1) : removeFirst pid (l1 ++ pid :: l2) = l1 ++ l2 := by
  induction l1 with
  | nil => simp [removeFirst]
  | cons f rest ih =>
    simp only [List.mem_cons, not_or] at h
    simp only [List.cons_append]
    unfold removeFirst
    rw [if_neg (Ne.symm h.1), ih h.2]

theorem removeFirst_sublist (pid : Int) :
    ∀ l : List Int, (removeFirst pid l).Sublist l
  | [] => List.Sublist.refl _
  | f :: rest => by
    unfold removeFirst
    by_cases hf : f = pid
    · rw [if_pos hf]
      exact List.Sublist.cons _ (List.Sublist.refl _)
    · rw [if_neg hf]
      exact List.Sublist.cons₂ _ (removeFirst_sublist pid rest)

theorem not_mem_removeFirst_of_count_le_one {pid : Int} {l : List Int}
    (h : l.count pid ≤ 1) : pid ∉ removeFirst pid l := by
  induction l with
  | nil => simp [removeFirst]
  | cons f rest ih =>
    unfold removeFirst
    by_cases hf : f = pid
    · subst hf
      rw [if_pos rfl]
      rw [List.count_cons_self] at h
      exact List.count_eq_zero.mp (by omega)
    · rw [if_neg hf]
      rw [List.count_cons_of_ne (Ne.symm hf)] at h
      simp only [List.mem_cons, not_or]
      exact ⟨fun he => hf he.symm, ih h⟩

theorem iterRetry_rotate : ∀ (n : Nat) (s : Sched), s.blockedQueue ≠ [] →
    iterRetry s n = .ok { s with blockedQueue := s.blockedQueue.rotate n }
  | 0, s, _ => by simp [iterRetry, List.rotate_zero]
  | n + 1, s, h => by
    cases hq : s.blockedQueue with
    | nil => exact absurd hq h
    | cons f rest =>
      unfold iterRetry resumeRetry
      rw [hq]
      simp only [ne_eq, not_true_eq_false, if_false, ite_false]
      have ih := iterRetry_rotate n { s with blockedQueue := rest ++ [f] }
        (by simp)
      rw [ih]
      rw [List.rotate_cons_succ]

theorem preemptSyscall_ok_elim {s s' : Sched} {pid : Int}
    (h : preemptSyscall s pid = .ok s') :
    ∃ rest, s.runnableQueue = pid :: rest ∧
      s' = { s with runnableQueue := rest
                    blockedQueue := s.blockedQueue ++ [pid] } := by
  unfold preemptSyscall at h
  cases hq : s.runnableQueue with
  | nil =>
    rw [hq] at h
    exact absurd h (by simp)
  | cons f rest =>
    rw [hq] at h
    by_cases hf : f = pid
    · subst hf
      simp only [ne_eq, not_true_eq_false, if_false, ite_false,
        Except.ok.injEq] at h
      exact ⟨rest, rfl, h.symm⟩
    · simp [hf] at h

theorem resumeRetry_ok_elim {s s' : Sched} {pid : Int}
    (h : resumeRetry s pid = .ok s') :
    ∃ rest, s.blockedQueue = pid :: rest ∧
      s' = { s with blockedQueue := rest ++ [pid] } := by
  unfold resumeRetry at h
  cases hq : s.blockedQueue with
  | nil =>
    rw [hq] at h
    exact absurd h (by simp)
  | cons f rest =>
    rw [hq] at h
    by_cases hf : f = pid
    · subst hf
      simp only [ne_eq, not_true_eq_false, if_false, ite_false,
        Except.ok.injEq] at h
      exact ⟨rest, rfl, h.symm⟩
    · simp [hf] at h

theorem resumeParallel_ok_elim {s s' : Sched} {pid : Int}
    (h : resumeParallel s pid = .ok s') :
    (∃ bs, s.blockedQueue = pid :: bs ∧ s.runnableQueue ≠ [] ∧
      s' = { s with blockedQueue := bs,
                    parallelProcesses := insert pid s.parallelProcesses }) ∨
    (∃ fb bs rs, s.blockedQueue = fb :: bs ∧ fb ≠ pid ∧
      s.runnableQueue = pid :: rs ∧
      s' = { s with runnableQueue := rs,
                    parallelProcesses := insert pid s.parallelProcesses }) := by
  unfold resumeParallel at h
  cases hb : s.blockedQueue with
  | nil =>
    rw [hb] at h
    exact absurd h (by simp)
  | cons fb bs =>
    cases hr : s.runnableQueue with
    | nil =>
      rw [hb, hr] at h
      exact absurd h (by simp)
    | cons fr rs =>
      rw [hb, hr] at h
      by_cases hfb : fb = pid
      · subst hfb
        simp only [if_true, ite_true, Except.ok.injEq] at h
        exact Or.inl ⟨bs, rfl, by simp, h.symm⟩
      · by_cases hfr : fr = pid
        · subst hfr
          simp only [hfb, if_true, if_false, ite_true, ite_false,
            Except.ok.injEq] at h
          exact Or.inr ⟨fb, bs, rs, rfl, hfb, rfl, h.symm⟩
        · simp [hfb, hfr] at h

/-! ## Invariant preservation -/

theorem schedInv_addToParallelSet {s : Sched} {p : Int} (hinv : SchedInv s)
    (h1 : p ∉ s.runnableQueue) (h2 : p ∉ s.blockedQueue) :
    SchedInv (addToParallelSet s p) := by
  obtain ⟨hrn, hbn, hd1, hd2, hd3⟩ := hinv
  refine ⟨hrn, hbn, ?_, ?_, hd3⟩
  · intro q hq
    rcases Finset.mem_insert.mp hq with rfl | hq'
    · exact h1
    · exact hd1 q hq'
  · intro q hq
    rcases Finset.mem_insert.mp hq with rfl | hq'
    · exact h2
    · exact hd2 q hq'

theorem schedInv_addToRunnableQueue {s : Sched} {p : Int}
    (hinv : SchedInv s) (h1 : p ∉ s.runnableQueue)
    (h2 : p ∉ s.blockedQueue) : SchedInv (addToRunnableQueue s p) := by
  obtain ⟨hrn, hbn, hd1, hd2, hd3⟩ := hinv
  refine ⟨?_, hbn, ?_, ?_, ?_⟩
  · exact List.nodup_append.mpr
      ⟨hrn, List.nodup_singleton p, by simpa using h1⟩
  · intro q hq
    have hqp : q ∈ s.parallelProcesses := Finset.mem_of_mem_erase hq
    have hqne : q ≠ p := Finset.ne_of_mem_erase hq
    show q ∉ s.runnableQueue ++ [p]
    simp only [List.mem_append, List.mem_singleton]
    rintro (hmem | rfl)
    · exact hd1 q hqp hmem
    · exact hqne rfl
  · intro q hq
    exact hd2 q (Finset.mem_of_mem_erase hq)
  · intro q hq
    rcases List.mem_append.mp hq with hmem | hmem
    · exact hd3 q hmem
    · rw [List.mem_singleton.mp hmem]
      exact h2

theorem schedInv_preempt {s s' : Sched} {p : Int}
    (h : preemptSyscall s p = .ok s') (hinv : SchedInv s) : SchedInv s' := by
  obtain ⟨rest, hq, rfl⟩ := preemptSyscall_ok_elim h
  obtain ⟨hrn, hbn, hd1, hd2, hd3⟩ := hinv
  rw [hq] at hrn hd1 hd3
  have hpmem : p ∈ (p :: rest) := List.mem_cons_self p rest
  have hpnb : p ∉ s.blockedQueue := hd3 p hpmem
  have hpnr : p ∉ rest := (List.nodup_cons.mp hrn).1
  refine ⟨(List.nodup_cons.mp hrn).2, ?_, ?_, ?_, ?_⟩
  · exact List.nodup_append.mpr
      ⟨hbn, List.nodup_singleton p, by simpa using hpnb⟩
  · intro q hq'
    exact fun hmem => hd1 q hq' (List.mem_cons_of_mem p hmem)
  · intro q hq'
    simp only [List.mem_append, List.mem_singleton]
    rintro (hmem | rfl)
    · exact hd2 q hq' hmem
    · exact hd1 q hq' hpmem
  · intro q hq'
    simp only [List.mem_append, List.mem_singleton]
    rintro (hmem | rfl)
    · exact hd3 q (List.mem_cons_of_mem p hq') hmem
    · exact hpnr hq'

theorem schedInv_retry {s s' : Sched} {p : Int}
    (h : resumeRetry s p = .ok s') (hinv : SchedInv s) : SchedInv s' := by
  obtain ⟨rest, hq, rfl⟩ := resumeRetry_ok_elim h
  obtain ⟨hrn, hbn, hd1, hd2, hd3⟩ := hinv
  have hperm : (rest ++ [p]).Perm (p :: rest) :=
    List.perm_append_singleton p rest
  have hmem_iff : ∀ q : Int, q ∈ rest ++ [p] ↔ q ∈ s.blockedQueue := by
    intro q
    rw [hq]
    exact hperm.mem_iff
  refine ⟨hrn, ?_, hd1, ?_, ?_⟩
  · exact hperm.nodup_iff.mpr (hq ▸ hbn)
  · intro q hq'
    exact fun hmem => hd2 q hq' ((hmem_iff q).mp hmem)
  · intro q hq'
    exact fun hmem => hd3 q hq' ((hmem_iff q).mp hmem)

theorem schedInv_resumeParallel {s s' : Sched} {p : Int}
    (h : resumeParallel s p = .ok s') (hinv : SchedInv s) : SchedInv s' := by
  obtain ⟨hrn, hbn, hd1, hd2, hd3⟩ := hinv
  rcases resumeParallel_ok_elim h with ⟨bs, hb, _, rfl⟩ |
    ⟨fb, bs, rs, hb, hfb, hr, rfl⟩
  · rw [hb] at hbn hd2 hd3
    have hpmem : p ∈ (p :: bs) := List.mem_cons_self p bs
    have hpnr : p ∉ s.runnableQueue := fun hm => hd3 p hm hpmem
    have hpnbs : p ∉ bs := (List.nodup_cons.mp hbn).1
    refine ⟨hrn, (List.nodup_cons.mp hbn).2, ?_, ?_, ?_⟩
    · intro q hq'
      rcases Finset.mem_insert.mp hq' with rfl | hq''
      · exact hpnr
      · exact hd1 q hq''
    · intro q hq'
      rcases Finset.mem_insert.mp hq' with rfl | hq''
      · exact hpnbs
      · exact fun hmem => hd2 q hq'' (List.mem_cons_of_mem p hmem)
    · intro q hq'
      exact fun hmem => hd3 q hq' (List.mem_cons_of_mem p hmem)
  · rw [hr] at hrn hd1 hd3
    have hpmem : p ∈ (p :: rs) := List.mem_cons_self p rs
    have hpnb : p ∉ s.blockedQueue := hd3 p hpmem
    have hpnrs : p ∉ rs := (List.nodup_cons.mp hrn).1
    refine ⟨(List.nodup_cons.mp hrn).2, hbn, ?_, ?_, ?_⟩
    · intro q hq'
      rcases Finset.mem_insert.mp hq' with rfl | hq''
      · exact hpnrs
      · exact fun hmem => hd1 q hq'' (List.mem_cons_of_mem p hmem)
    · intro q hq'
      rcases Finset.mem_insert.mp hq' with rfl | hq''
      · exact hpnb
      · exact hd2 q hq''
    · intro q hq'
      exact hd3 q (List.mem_cons_of_mem p hq')

theorem schedInv_remove {s : Sched} {p : Int} (hinv : SchedInv s) :
    SchedInv (removeFromScheduler s p) := by
  obtain ⟨hrn, hbn, hd1, hd2, hd3⟩ := hinv
  have hrs := removeFirst_sublist p s.runnableQueue
  have hbs := removeFirst_sublist p s.blockedQueue
  refine ⟨hrn.sublist hrs, hbn.sublist hbs, ?_, ?_, ?_⟩
  · intro q hq'
    exact fun hmem => hd1 q (Finset.mem_of_mem_erase hq') (hrs.mem hmem)
  · intro q hq'
    exact fun hmem => hd2 q (Finset.mem_of_mem_erase hq') (hbs.mem hmem)
  · intro q hq'
    exact fun hmem => hd3 q (hrs.mem hq') (hbs.mem hmem)

theorem schedInv_gstep {s s' : Sched} (h : GStep s s') (hinv : SchedInv s) :
    SchedInv s' := by
  cases h with
  | addParallel p h1 h2 => exact schedInv_addToParallelSet hinv h1 h2
  | addRunnable p h1 h2 => exact schedInv_addToRunnableQueue hinv h1 h2
  | preempt p s2 hok => exact schedInv_preempt hok hinv
  | retry p s2 hok => exact schedInv_retry hok hinv
  | resumePar p s2 hok => exact schedInv_resumeParallel hok hinv
  | remove p => exact schedInv_remove hinv

theorem schedInv_mkScheduler (startPid : Int) :
    SchedInv (mkScheduler startPid) := by
  refine ⟨List.nodup_nil, List.nodup_nil, ?_, ?_, ?_⟩ <;>
    simp [mkScheduler]

/-! ## Claim theorems -/

/-- C1: given that the runnable queue has a front, `preemptSyscall pid`
with `pid` different from that front fails with an invariant violation (an
error result leaves the caller's state, hence the runnable queue,
untouched: the source throws before mutating), and with `pid` equal to the
front it pops the front off the runnable queue and appends `pid` to the
back of the blocked queue. -/
theorem preemptSyscall_front_guard (s : Sched) (pid frontPid : Int)
    (rest : List Int) (h : s.runnableQueue = frontPid :: rest) :
    (frontPid ≠ pid → preemptSyscall s pid = .error .invariantViolation) ∧
    (frontPid = pid →
      preemptSyscall s pid =
        .ok { s with runnableQueue := rest
                     blockedQueue := s.blockedQueue ++ [pid] }) := by
  unfold preemptSyscall
  rw [h]
  constructor
  · intro hne
    simp [hne]
  · intro he
    subst he
    simp

/-- Witness for C1 at the spec's own test state Runnable = {A, B} with
A = 1, B = 2: `preemptSyscall 2` fails, `preemptSyscall 1` succeeds. -/
theorem preemptSyscall_front_guard_witness :
    preemptSyscall ⟨0, ∅, [1, 2], [], ∅⟩ 2 = .error .invariantViolation ∧
    preemptSyscall ⟨0, ∅, [1, 2], [], ∅⟩ 1 = .ok ⟨0, ∅, [2], [1], ∅⟩ := by
  have hfail :=
    (preemptSyscall_front_guard ⟨0, ∅, [1, 2], [], ∅⟩ 2 1 [2] rfl).1 (by decide)
  have hok :=
    (preemptSyscall_front_guard ⟨0, ∅, [1, 2], [], ∅⟩ 1 1 [2] rfl).2 rfl
  exact ⟨hfail, by simpa using hok⟩

/-- C2: given that the blocked queue has a front, `resumeRetry` on that
front pid rotates the blocked queue by one position (pops the front and
re-appends it at the back); length-many successive front-targeting calls
(`iterRetry`) restore a duplicate-free blocked queue to its original
order; and `resumeRetry` on a pid different from the front fails with an
invariant violation. -/
theorem resumeRetry_rotation (s : Sched) (frontPid pid : Int)
    (rest : List Int) (h : s.blockedQueue = frontPid :: rest) :
    (frontPid = pid →
      resumeRetry s pid = .ok { s with blockedQueue := rest ++ [pid] }) ∧
    (frontPid ≠ pid → resumeRetry s pid = .error .invariantViolation) ∧
    (s.blockedQueue.Nodup → iterRetry s s.blockedQueue.length = .ok s) := by
  refine ⟨?_, ?_, ?_⟩
  · intro he
    subst he
    unfold resumeRetry
    rw [h]
    simp
  · intro hne
    unfold resumeRetry
    rw [h]
    simp [hne]
  · intro _
    have hne : s.blockedQueue ≠ [] := by rw [h]; simp
    rw [iterRetry_rotate _ _ hne, List.rotate_length]

/-- Witness for C2 at Blocked = {1, 2, 3}: `resumeRetry 1` yields
{2, 3, 1}, three front-targeting calls restore {1, 2, 3}, and
`resumeRetry 2` (not the front) fails. -/
theorem resumeRetry_rotation_witness :
    resumeRetry ⟨0, ∅, [], [1, 2, 3], ∅⟩ 1 = .ok ⟨0, ∅, [], [2, 3, 1], ∅⟩ ∧
    iterRetry ⟨0, ∅, [], [1, 2, 3], ∅⟩ 3 = .ok ⟨0, ∅, [], [1, 2, 3], ∅⟩ ∧
    resumeRetry ⟨0, ∅, [], [1, 2, 3], ∅⟩ 2 = .error .invariantViolation := by
  have hrot :=
    (resumeRetry_rotation ⟨0, ∅, [], [1, 2, 3], ∅⟩ 1 1 [2, 3] rfl).1 rfl
  have hcycle :=
    (resumeRetry_rotation ⟨0, ∅, [], [1, 2, 3], ∅⟩ 1 1 [2, 3] rfl).2.2
      (by decide)
  have hfail :=
    (resumeRetry_rotation ⟨0, ∅, [], [1, 2, 3], ∅⟩ 1 2 [2, 3] rfl).2.1
      (by decide)
  exact ⟨by simpa using hrot, by simpa using hcycle, hfail⟩

/-- C5 (code bug): with the parallel set empty, the runnable queue empty
and Blocked = {1, 2}, pid 2 IS in the blocked queue, yet `isAlive 2`
returns `false` — the double `pop()` in the blocked-queue loop of
`scheduler::isAlive` skips pid 2 (and even drops it from the rebuilt
queue, leaving Blocked = {1}) instead of scanning the whole queue. -/
theorem isAlive_misses_blocked_member :
    (2 : Int) ∈ Sched.blockedQueue ⟨0, ∅, [], [1, 2], ∅⟩ ∧
    (2 : Int) ∉ Sched.parallelProcesses ⟨0, ∅, [], [1, 2], ∅⟩ ∧
    (2 : Int) ∉ Sched.runnableQueue ⟨0, ∅, [], [1, 2], ∅⟩ ∧
    isAlive ⟨0, ∅, [], [1, 2], ∅⟩ 2 = .ok (false, ⟨0, ∅, [], [1], ∅⟩) := by
  refine ⟨by decide, by decide, by decide, ?_⟩
  decide

/-- C6 (code bug): the query `isAlive` mutates scheduler state: on
Blocked = {5}, `isAlive 5` answers `true` but hands back a state whose
blocked queue is empty — the matching front popped by the blocked-queue
loop of `scheduler::isAlive` is never pushed back. -/
theorem isAlive_mutates_state :
    isAlive ⟨0, ∅, [], [5], ∅⟩ 5 = .ok (true, ⟨0, ∅, [], [], ∅⟩) ∧
    Sched.blockedQueue ⟨0, ∅, [], [], ∅⟩ ≠
      Sched.blockedQueue ⟨0, ∅, [], [5], ∅⟩ := by
  exact ⟨by decide, by decide⟩

/-- C7 counterexample: with Blocked = {1} and Runnable empty, pid 1 is the
current front of the blocked queue (`getNextBlocked` returns it), yet
`resumeParallel 1` does not succeed: the source reads
`runnableQueue.front()` unconditionally, which on the empty runnable queue
is undefined behaviour, not a success. -/
theorem resumeParallel_front_claim_false :
    getNextBlocked ⟨0, ∅, [], [1], ∅⟩ = 1 ∧
    resumeParallel ⟨0, ∅, [], [1], ∅⟩ 1 = .error .emptyQueueUB := by
  exact ⟨by decide, by decide⟩

/-- C7 amended: provided BOTH queues are non-empty, `resumeParallel pid`
succeeds exactly when `pid` is the front of the blocked queue or the front
of the runnable queue: it pops the blocked front when that matches
(blocked checked first), else pops the runnable front when that matches,
inserting `pid` into the parallel set either way; when neither front
matches it fails with an invariant violation (leaving the state with the
caller, untouched). -/
theorem resumeParallel_guarded (s : Sched) (pid fb fr : Int)
    (bs rs : List Int) (hb : s.blockedQueue = fb :: bs)
    (hr : s.runnableQueue = fr :: rs) :
    (fb = pid → resumeParallel s pid =
      .ok { s with blockedQueue := bs
                   parallelProcesses := insert pid s.parallelProcesses }) ∧
    (fb ≠ pid → fr = pid → resumeParallel s pid =
      .ok { s with runnableQueue := rs
                   parallelProcesses := insert pid s.parallelProcesses }) ∧
    (fb ≠ pid → fr ≠ pid →
      resumeParallel s pid = .error .invariantViolation) := by
  unfold resumeParallel
  rw [hb, hr]
  refine ⟨?_, ?_, ?_⟩
  · intro he
    subst he
    simp
  · intro hne he
    subst he
    simp [hne]
  · intro hnb hnr
    simp [hnb, hnr]

/-- Witness for the amended C7 at Blocked = {1}, Runnable = {2}:
`resumeParallel 1` pops the blocked front, `resumeParallel 2` pops the
runnable front, `resumeParallel 3` fails. -/
theorem resumeParallel_guarded_witness :
    resumeParallel ⟨0, ∅, [2], [1], ∅⟩ 1 = .ok ⟨0, {1}, [2], [], ∅⟩ ∧
    resumeParallel ⟨0, ∅, [2], [1], ∅⟩ 2 = .ok ⟨0, {2}, [], [1], ∅⟩ ∧
    resumeParallel ⟨0, ∅, [2], [1], ∅⟩ 3 = .error .invariantViolation := by
  have h1 :=
    (resumeParallel_guarded ⟨0, ∅, [2], [1], ∅⟩ 1 1 2 [] [] rfl rfl).1 rfl
  have h2 :=
    (resumeParallel_guarded ⟨0, ∅, [2], [1], ∅⟩ 2 1 2 [] [] rfl rfl).2.1
      (by decide) rfl
  have h3 :=
    (resumeParallel_guarded ⟨0, ∅, [2], [1], ∅⟩ 3 1 2 [] [] rfl rfl).2.2
      (by decide) (by decide)
  refine ⟨?_, ?_, h3⟩
  · rw [h1]
    decide
  · rw [h2]
    decide

/-- C8: when `pid` sits in the middle of the runnable queue (first
occurrence after prefix `l1`), and is absent from the blocked queue and
the parallel set, `removeFromScheduler pid` removes exactly that
occurrence — Runnable becomes `l1 ++ l2` with the relative order of the
remaining elements preserved — leaves the other live collections
unchanged, and inserts `pid` into the finished set. -/
theorem removeFromScheduler_middle (s : Sched) (pid : Int)
    (l1 l2 : List Int) (hq : s.runnableQueue = l1 ++ pid :: l2)
    (h1 : pid ∉ l1) (hb : pid ∉ s.blockedQueue)
    (hp : pid ∉ s.parallelProcesses) :
    removeFromScheduler s pid =
      { s with runnableQueue := l1 ++ l2
               finishedProcesses := insert pid s.finishedProcesses } := by
  unfold removeFromScheduler
  rw [hq, removeFirst_append_not_mem h1, removeFirst_of_not_mem hb,
    Finset.erase_eq_of_not_mem hp]

/-- Witness for C8 at Runnable = {10, 20, 30}: removing 20 leaves
Runnable = {10, 30} and finishes 20. -/
theorem removeFromScheduler_middle_witness :
    removeFromScheduler ⟨0, ∅, [10, 20, 30], [], ∅⟩ 20 =
      ⟨0, ∅, [10, 30], [], {20}⟩ := by
  have h := removeFromScheduler_middle ⟨0, ∅, [10, 20, 30], [], ∅⟩ 20
    [10] [30] rfl (by decide) (by decide) (by decide)
  rw [h]
  decide

/-- C9: `removeFromScheduler` on a pid absent from the parallel set, the
blocked queue and the runnable queue never fails: it leaves all three live
collections exactly as they were (contents and order), still inserts the
pid into the finished set, and `isFinished` answers true afterwards. -/
theorem removeFromScheduler_not_found (s : Sched) (pid : Int)
    (hp : pid ∉ s.parallelProcesses) (hb : pid ∉ s.blockedQueue)
    (hr : pid ∉ s.runnableQueue) :
    removeFromScheduler s pid =
      { s with finishedProcesses := insert pid s.finishedProcesses } ∧
    isFinished (removeFromScheduler s pid) pid = true := by
  have heq : removeFromScheduler s pid =
      { s with finishedProcesses := insert pid s.finishedProcesses } := by
    unfold removeFromScheduler
    rw [removeFirst_of_not_mem hb, removeFirst_of_not_mem hr,
      Finset.erase_eq_of_not_mem hp]
  refine ⟨heq, ?_⟩
  rw [heq]
  simp [isFinished]

/-- Witness for C9: removing the unknown pid 9 from a scheduler with
Parallel = {1}, Runnable = {2} and Blocked = {3} only records 9 as
finished. -/
theorem removeFromScheduler_not_found_witness :
    removeFromScheduler ⟨0, {1}, [2], [3], ∅⟩ 9 = ⟨0, {1}, [2], [3], {9}⟩ ∧
    isFinished (removeFromScheduler ⟨0, {1}, [2], [3], ∅⟩ 9) 9 = true := by
  have h := removeFromScheduler_not_found ⟨0, {1}, [2], [3], ∅⟩ 9
    (by decide) (by decide) (by decide)
  exact ⟨by rw [h.1]; decide, h.2⟩

/-- C10: the queue accesses are unguarded — `resumeRetry` on an empty
blocked queue and `preemptSyscall` on an empty runnable queue hit the
undefined-behaviour branch of the total embedding; `resumeParallel` reads
both fronts, so it hits it as soon as EITHER queue is empty (including
when the targeted pid is the front of the one non-empty queue);
`isAlive`'s blocked-queue loop performs a second pop after a non-matching
front, hitting it on a singleton non-matching queue; and for the three
transition operations the undefined-behaviour branch is unreachable when
the respective queues are non-empty. -/
theorem unguarded_queue_accesses :
    (∀ (s : Sched) (pid : Int), s.blockedQueue = [] →
      resumeRetry s pid = .error .emptyQueueUB) ∧
    (∀ (s : Sched) (pid : Int), s.runnableQueue = [] →
      preemptSyscall s pid = .error .emptyQueueUB) ∧
    (∀ (s : Sched) (pid : Int),
      s.blockedQueue = [] ∨ s.runnableQueue = [] →
      resumeParallel s pid = .error .emptyQueueUB) ∧
    (∀ (s : Sched) (pid x : Int), pid ∉ s.parallelProcesses →
      s.blockedQueue = [x] → x ≠ pid →
      isAlive s pid = .error .emptyQueueUB) ∧
    (∀ (s : Sched) (pid : Int), s.blockedQueue ≠ [] →
      resumeRetry s pid ≠ .error .emptyQueueUB) ∧
    (∀ (s : Sched) (pid : Int), s.runnableQueue ≠ [] →
      preemptSyscall s pid ≠ .error .emptyQueueUB) ∧
    (∀ (s : Sched) (pid : Int), s.blockedQueue ≠ [] →
      s.runnableQueue ≠ [] →
      resumeParallel s pid ≠ .error .emptyQueueUB) := by
  refine ⟨?_, ?_, ?_, ?_, ?_, ?_, ?_⟩
  · intro s pid h
    unfold resumeRetry
    rw [h]
  · intro s pid h
    unfold preemptSyscall
    rw [h]
  · intro s pid h
    unfold resumeParallel
    rcases h with h | h
    · rw [h]
    · rw [h]
      cases s.blockedQueue <;> rfl
  · intro s pid x hp hb hx
    unfold isAlive
    rw [if_neg hp, hb]
    simp [isAliveBlockedScan, hx]
  · intro s pid h
    cases hb : s.blockedQueue with
    | nil => exact absurd hb h
    | cons f rest =>
      unfold resumeRetry
      rw [hb]
      by_cases hf : f = pid
      · simp [hf]
      · simp [hf]
  · intro s pid h
    cases hr : s.runnableQueue with
    | nil => exact absurd hr h
    | cons f rest =>
      unfold preemptSyscall
      rw [hr]
      by_cases hf : f = pid
      · simp [hf]
      · simp [hf]
  · intro s pid hb hr
    cases hbq : s.blockedQueue with
    | nil => exact absurd hbq hb
    | cons fb bs =>
      cases hrq : s.runnableQueue with
      | nil => exact absurd hrq hr
      | cons fr rs =>
        unfold resumeParallel
        rw [hbq, hrq]
        by_cases hfb : fb = pid
        · simp [hfb]
        · by_cases hfr : fr = pid
          · simp [hfb, hfr]
          · simp [hfb, hfr]

/-- Witness for C10: each conjunct instantiated at a concrete state. -/
theorem unguarded_queue_accesses_witness :
    resumeRetry ⟨0, ∅, [7], [], ∅⟩ 7 = .error .emptyQueueUB ∧
    preemptSyscall ⟨0, ∅, [], [7], ∅⟩ 7 = .error .emptyQueueUB ∧
    resumeParallel ⟨0, ∅, [8], [], ∅⟩ 8 = .error .emptyQueueUB ∧
    isAlive ⟨0, ∅, [], [3], ∅⟩ 9 = .error .emptyQueueUB ∧
    resumeRetry ⟨0, ∅, [], [4], ∅⟩ 4 ≠ .error .emptyQueueUB ∧
    preemptSyscall ⟨0, ∅, [4], [], ∅⟩ 4 ≠ .error .emptyQueueUB ∧
    resumeParallel ⟨0, ∅, [5], [6], ∅⟩ 5 ≠ .error .emptyQueueUB := by
  exact ⟨unguarded_queue_accesses.1 ⟨0, ∅, [7], [], ∅⟩ 7 rfl,
    unguarded_queue_accesses.2.1 ⟨0, ∅, [], [7], ∅⟩ 7 rfl,
    unguarded_queue_accesses.2.2.1 ⟨0, ∅, [8], [], ∅⟩ 8 (Or.inl rfl),
    unguarded_queue_accesses.2.2.2.1 ⟨0, ∅, [], [3], ∅⟩ 9 3
      (by decide) rfl (by decide),
    unguarded_queue_accesses.2.2.2.2.1 ⟨0, ∅, [], [4], ∅⟩ 4 (by decide),
    unguarded_queue_accesses.2.2.2.2.2.1 ⟨0, ∅, [4], [], ∅⟩ 4 (by decide),
    unguarded_queue_accesses.2.2.2.2.2.2 ⟨0, ∅, [5], [6], ∅⟩ 5
      (by decide) (by decide)⟩

theorem retired_removeFromScheduler {s : Sched} {pid : Int}
    (hb : s.blockedQueue.count pid ≤ 1) (hr : s.runnableQueue.count pid ≤ 1) :
    Retired (removeFromScheduler s pid) pid := by
  refine ⟨?_, ?_, ?_, ?_⟩
  · show pid ∈ insert pid s.finishedProcesses
    exact Finset.mem_insert_self pid s.finishedProcesses
  · show pid ∉ s.parallelProcesses.erase pid
    exact Finset.not_mem_erase pid s.parallelProcesses
  · exact not_mem_removeFirst_of_count_le_one hr
  · exact not_mem_removeFirst_of_count_le_one hb

theorem retired_stepAvoiding {pid : Int} {s s' : Sched}
    (h : StepAvoiding pid s s') (hret : Retired s pid) : Retired s' pid := by
  obtain ⟨hf, hpp, hrq, hbq⟩ := hret
  cases h with
  | addParallel p hne =>
    refine ⟨hf, ?_, hrq, hbq⟩
    show pid ∉ insert p s.parallelProcesses
    intro hmem
    rcases Finset.mem_insert.mp hmem with rfl | hmem'
    · exact hne rfl
    · exact hpp hmem'
  | addRunnable p hne =>
    refine ⟨hf, ?_, ?_, hbq⟩
    · show pid ∉ s.parallelProcesses.erase p
      exact fun hmem => hpp (Finset.mem_of_mem_erase hmem)
    · show pid ∉ s.runnableQueue ++ [p]
      simp only [List.mem_append, List.mem_singleton]
      rintro (hmem | rfl)
      · exact hrq hmem
      · exact hne rfl
  | preempt p s2 hok =>
    obtain ⟨rest, hq, rfl⟩ := preemptSyscall_ok_elim hok
    have hpne : p ≠ pid := by
      rintro rfl
      exact hrq (hq ▸ List.mem_cons_self p rest)
    refine ⟨hf, hpp, ?_, ?_⟩
    · intro hmem
      exact hrq (hq ▸ List.mem_cons_of_mem p hmem)
    · show pid ∉ s.blockedQueue ++ [p]
      simp only [List.mem_append, List.mem_singleton]
      rintro (hmem | rfl)
      · exact hbq hmem
      · exact hpne rfl
  | retry p s2 hok =>
    obtain ⟨rest, hq, rfl⟩ := resumeRetry_ok_elim hok
    have hpne : p ≠ pid := by
      rintro rfl
      exact hbq (hq ▸ List.mem_cons_self p rest)
    refine ⟨hf, hpp, hrq, ?_⟩
    show pid ∉ rest ++ [p]
    simp only [List.mem_append, List.mem_singleton]
    rintro (hmem | rfl)
    · exact hbq (hq ▸ List.mem_cons_of_mem p hmem)
    · exact hpne rfl
  | resumePar p s2 hok =>
    rcases resumeParallel_ok_elim hok with ⟨bs, hq, _, rfl⟩ |
      ⟨fb, bs, rs, _, _, hq, rfl⟩
    · have hpne : p ≠ pid := by
        rintro rfl
        exact hbq (hq ▸ List.mem_cons_self p bs)
      refine ⟨hf, ?_, hrq, ?_⟩
      · show pid ∉ insert p s.parallelProcesses
        intro hmem
        rcases Finset.mem_insert.mp hmem with rfl | hmem'
        · exact hpne rfl
        · exact hpp hmem'
      · exact fun hmem => hbq (hq ▸ List.mem_cons_of_mem p hmem)
    · have hpne : p ≠ pid := by
        rintro rfl
        exact hrq (hq ▸ List.mem_cons_self p rs)
      refine ⟨hf, ?_, ?_, hbq⟩
      · show pid ∉ insert p s.parallelProcesses
        intro hmem
        rcases Finset.mem_insert.mp hmem with rfl | hmem'
        · exact hpne rfl
        · exact hpp hmem'
      · exact fun hmem => hrq (hq ▸ List.mem_cons_of_mem p hmem)
  | remove p =>
    refine ⟨?_, ?_, ?_, ?_⟩
    · show pid ∈ insert p s.finishedProcesses
      exact Finset.mem_insert_of_mem hf
    · show pid ∉ s.parallelProcesses.erase p
      exact fun hmem => hpp (Finset.mem_of_mem_erase hmem)
    · exact fun hmem =>
        hrq ((removeFirst_sublist p s.runnableQueue).mem hmem)
    · exact fun hmem =>
        hbq ((removeFirst_sublist p s.blockedQueue).mem hmem)

/-- C3 counterexample: the state obtained from the constructed scheduler
by the valid transition sequence `addToRunnableQueue 0` (its stated
precondition is vacuous) followed by `addToParallelSet 0` (unconditional
insert) is reachable, yet pid 0 then sits in the parallel set AND in the
runnable queue, violating disjointness. -/
theorem reachable_disjoint_counterexample :
    Reachable 0 (addToParallelSet (addToRunnableQueue (mkScheduler 0) 0) 0) ∧
    ¬ DisjointState
        (addToParallelSet (addToRunnableQueue (mkScheduler 0) 0) 0) := by
  constructor
  · exact Relation.ReflTransGen.tail
      (Relation.ReflTransGen.single (Step.addRunnable _ 0))
      (Step.addParallel _ 0)
  · intro hd
    have h0 : (0 : Int) ∈
        (addToParallelSet (addToRunnableQueue (mkScheduler 0) 0)
          0).parallelProcesses := by decide
    exact hd.1 0 h0 (by decide)

/-- C3 amended: along every sequence of transitions in which the two
unconditional insertions `addToParallelSet` and `addToRunnableQueue` are
only applied to a pid not already waiting in the runnable or blocked
queue (and the remaining transitions succeed with their stated
front-of-queue preconditions), every reachable state keeps the parallel
set, the runnable queue and the blocked queue pairwise disjoint. -/
theorem greachable_disjoint (startPid : Int) (s : Sched)
    (h : GReachable startPid s) : DisjointState s := by
  have hinv : SchedInv s := by
    unfold GReachable at h
    induction h with
    | refl => exact schedInv_mkScheduler startPid
    | tail _ hstep ih => exact schedInv_gstep hstep ih
  exact hinv.2.2

/-- Witness for the amended C3: the state after moving the root pid 0
from the parallel set into the runnable queue is reachable by guarded
transitions and is disjoint. -/
theorem greachable_disjoint_witness :
    DisjointState (addToRunnableQueue (mkScheduler 0) 0) :=
  greachable_disjoint 0 (addToRunnableQueue (mkScheduler 0) 0)
    (Relation.ReflTransGen.single
      (GStep.addRunnable (mkScheduler 0) 0 (by decide) (by decide)))

/-- C4 counterexample: `removeFromScheduler 0` moves pid 0 into the
finished set, yet the subsequent transition `addToParallelSet 0` — one of
the operations the claim quantifies over, applied with its (vacuous)
stated precondition — places 0 back into the parallel set. -/
theorem finished_permanence_counterexample :
    (0 : Int) ∈ (removeFromScheduler (mkScheduler 0) 0).finishedProcesses ∧
    Step (removeFromScheduler (mkScheduler 0) 0)
      (addToParallelSet (removeFromScheduler (mkScheduler 0) 0) 0) ∧
    (0 : Int) ∈ (addToParallelSet (removeFromScheduler (mkScheduler 0) 0)
        0).parallelProcesses := by
  exact ⟨by decide, Step.addParallel _ 0, by decide⟩

/-- C4 amended: after `removeFromScheduler pid` (from any state whose
queues hold `pid` at most once, e.g. any state satisfying the
disjointness invariant), `pid` is in the finished set and out of all live
collections, and it stays that way across every subsequent sequence of
transitions in which the re-introducing operations `addToParallelSet` and
`addToRunnableQueue` are not applied to `pid` itself — only those two
operations can ever bring a finished pid back. -/
theorem finished_permanence_avoiding (pid : Int) (s s' : Sched)
    (hb : s.blockedQueue.count pid ≤ 1) (hr : s.runnableQueue.count pid ≤ 1)
    (h : Relation.ReflTransGen (StepAvoiding pid)
      (removeFromScheduler s pid) s') :
    pid ∈ s'.finishedProcesses ∧ pid ∉ s'.parallelProcesses ∧
      pid ∉ s'.runnableQueue ∧ pid ∉ s'.blockedQueue := by
  have hret : Retired s' pid := by
    induction h with
    | refl => exact retired_removeFromScheduler hb hr
    | tail _ hstep ih => exact retired_stepAvoiding hstep ih
  exact hret

/-- Witness for the amended C4: after finishing the root pid 0 and then
adding a fresh pid 1 to the parallel set, pid 0 is still finished and in
no live collection. -/
theorem finished_permanence_avoiding_witness :
    (0 : Int) ∈ (addToParallelSet (removeFromScheduler (mkScheduler 0) 0)
        1).finishedProcesses ∧
    (0 : Int) ∉ (addToParallelSet (removeFromScheduler (mkScheduler 0) 0)
        1).parallelProcesses ∧
    (0 : Int) ∉ (addToParallelSet (removeFromScheduler (mkScheduler 0) 0)
        1).runnableQueue ∧
    (0 : Int) ∉ (addToParallelSet (removeFromScheduler (mkScheduler 0) 0)
        1).blockedQueue :=
  finished_permanence_avoiding 0 (mkScheduler 0)
    (addToParallelSet (removeFromScheduler (mkScheduler 0) 0) 1)
    (by decide) (by decide)
    (Relation.ReflTransGen.single
      (StepAvoiding.addParallel (removeFromScheduler (mkScheduler 0) 0) 1
        (by decide)))

end Dettrace
